import Mathlib

/-!
Verification development for the Basement Renovator spatial/geometry core
(`src/BasementRenovator.py`).

The Python source is shallowly embedded: each relevant method becomes an
executable Lean function over explicit state, translated directly from the
source.  Stateful Qt objects (scene entities, doors) become records, and
object mutation becomes explicit state passing.
-/

set_option maxHeartbeats 1000000

namespace BasementRenovator

/-! ## Pit-frame autotiling (`Entity.getPitFrame`, lines 1499-1603)

The eight neighbor occupancy booleans follow the source's destructuring
order `[L, R, U, D, UL, DL, UR, DR]`.  The function is a direct
transcription of the rule cascade: a base orthogonal bitmask followed by a
fixed ordered sequence of guarded unconditional overwrites of `F`. -/

def getPitFrame (L R U D UL DL UR DR hasExtraFrames : Bool) : Nat :=
  let F : Nat := 0
  let F := if L then F ||| 1 else F
  let F := if U then F ||| 2 else F
  let F := if R then F ||| 4 else F
  let F := if D then F ||| 8 else F
  let F := if U ∧ L ∧ ¬UL ∧ ¬R ∧ ¬D then 17 else F
  let F := if U ∧ R ∧ ¬UR ∧ ¬L ∧ ¬D then 18 else F
  let F := if L ∧ D ∧ ¬DL ∧ ¬U ∧ ¬R then 19 else F
  let F := if R ∧ D ∧ ¬DR ∧ ¬L ∧ ¬U then 20 else F
  let F := if L ∧ U ∧ R ∧ D ∧ ¬UL then 21 else F
  let F := if L ∧ U ∧ R ∧ D ∧ ¬UR then 22 else F
  let F := if U ∧ R ∧ D ∧ ¬L ∧ ¬UR then 25 else F
  let F := if L ∧ U ∧ D ∧ ¬R ∧ ¬UL then 26 else F
  let F := if hasExtraFrames ∧ U ∧ L ∧ D ∧ UL ∧ ¬DL then 35 else F
  let F := if hasExtraFrames ∧ U ∧ R ∧ D ∧ UR ∧ ¬DR then 36 else F
  let F := if L ∧ U ∧ R ∧ D ∧ ¬DL ∧ ¬DR then 24 else F
  let F := if L ∧ U ∧ R ∧ D ∧ ¬UR ∧ ¬UL then 23 else F
  let F := if L ∧ U ∧ R ∧ UL ∧ ¬UR ∧ ¬D then 27 else F
  let F := if L ∧ U ∧ R ∧ UR ∧ ¬UL ∧ ¬D then 28 else F
  let F := if L ∧ U ∧ R ∧ ¬D ∧ ¬UR ∧ ¬UL then 29 else F
  let F := if L ∧ R ∧ D ∧ DL ∧ ¬U ∧ ¬DR then 30 else F
  let F := if L ∧ R ∧ D ∧ DR ∧ ¬U ∧ ¬DL then 31 else F
  let F := if L ∧ R ∧ D ∧ ¬U ∧ ¬DL ∧ ¬DR then 32 else F
  let F := if hasExtraFrames ∧ U ∧ R ∧ D ∧ ¬L ∧ ¬UR ∧ ¬DR then 33 else F
  let F := if hasExtraFrames ∧ U ∧ L ∧ D ∧ ¬R ∧ ¬UL ∧ ¬DL then 34 else F
  let F := if hasExtraFrames ∧ U ∧ R ∧ D ∧ L ∧ UL ∧ UR ∧ DL ∧ ¬DR then 37 else F
  let F := if hasExtraFrames ∧ U ∧ R ∧ D ∧ L ∧ UL ∧ UR ∧ DR ∧ ¬DL then 38 else F
  let F := if hasExtraFrames ∧ U ∧ R ∧ D ∧ L ∧ ¬UL ∧ ¬UR ∧ ¬DR ∧ ¬DL then 39 else F
  let F := if hasExtraFrames ∧ U ∧ R ∧ D ∧ L ∧ DL ∧ DR ∧ ¬UL ∧ ¬UR then 40 else F
  let F := if hasExtraFrames ∧ U ∧ R ∧ D ∧ L ∧ DL ∧ UR ∧ ¬UL ∧ ¬DR then 41 else F
  let F := if hasExtraFrames ∧ U ∧ R ∧ D ∧ L ∧ UL ∧ DR ∧ ¬DL ∧ ¬UR then 42 else F
  let F := if hasExtraFrames ∧ U ∧ R ∧ D ∧ L ∧ UL ∧ ¬DL ∧ ¬UR ∧ ¬DR then 43 else F
  let F := if hasExtraFrames ∧ U ∧ R ∧ D ∧ L ∧ UR ∧ ¬UL ∧ ¬DL ∧ ¬DR then 44 else F
  let F := if hasExtraFrames ∧ U ∧ R ∧ D ∧ L ∧ DL ∧ ¬UL ∧ ¬UR ∧ ¬DR then 45 else F
  let F := if hasExtraFrames ∧ U ∧ R ∧ D ∧ L ∧ DR ∧ ¬UL ∧ ¬UR ∧ ¬DL then 46 else F
  let F := if hasExtraFrames ∧ U ∧ R ∧ D ∧ L ∧ DL ∧ DR ∧ ¬UL ∧ ¬UR then 47 else F
  let F := if hasExtraFrames ∧ U ∧ R ∧ D ∧ L ∧ DL ∧ UL ∧ ¬UR ∧ ¬DR then 48 else F
  let F := if hasExtraFrames ∧ U ∧ R ∧ D ∧ L ∧ DR ∧ UR ∧ ¬UL ∧ ¬DL then 49 else F
  F

/-! ## Shape catalog (`Room.Info.Shapes`, lines 2287-2450)

A wall segment is the source tuple `(min, max, cross-axis level, normal
direction)`.  Door slots are `(x, y)` pairs; the catalog build appends the
`exists = True` flag. -/

structure Wall where
  wMin : Int
  wMax : Int
  lvl : Int
  dir : Int
deriving DecidableEq, Repr

inductive Axis where
  | X
  | Y
deriving DecidableEq, Repr

structure ShapeDef where
  doors : List (Int × Int)
  wallsX : List Wall
  wallsY : List Wall
  dims : Int × Int
deriving DecidableEq, Repr

def shape1 : ShapeDef :=
  { doors := [(7, 0), (0, 4), (14, 4), (7, 8)]
    wallsX := [⟨0, 14, 0, 1⟩, ⟨0, 14, 8, -1⟩]
    wallsY := [⟨0, 8, 0, 1⟩, ⟨0, 8, 14, -1⟩]
    dims := (15, 9) }

def shape2 : ShapeDef :=
  { doors := [(0, 4), (14, 4)]
    wallsX := [⟨0, 14, 2, 1⟩, ⟨0, 14, 6, -1⟩]
    wallsY := [⟨2, 6, 0, 1⟩, ⟨2, 6, 14, -1⟩]
    dims := (15, 5) }

def shape3 : ShapeDef :=
  { doors := [(7, 0), (7, 8)]
    wallsX := [⟨4, 10, 0, 1⟩, ⟨4, 10, 8, -1⟩]
    wallsY := [⟨0, 8, 4, 1⟩, ⟨0, 8, 10, -1⟩]
    dims := (7, 9) }

def shape4 : ShapeDef :=
  { doors := [(7, 0), (14, 4), (0, 4), (14, 11), (0, 11), (7, 15)]
    wallsX := [⟨0, 14, 0, 1⟩, ⟨0, 14, 15, -1⟩]
    wallsY := [⟨0, 15, 0, 1⟩, ⟨0, 15, 14, -1⟩]
    dims := (15, 16) }

def shape5 : ShapeDef :=
  { doors := [(7, 0), (7, 15)]
    wallsX := [⟨4, 10, 0, 1⟩, ⟨4, 10, 15, -1⟩]
    wallsY := [⟨0, 15, 4, 1⟩, ⟨0, 15, 10, -1⟩]
    dims := (7, 16) }

def shape6 : ShapeDef :=
  { doors := [(7, 0), (0, 4), (7, 8), (20, 8), (27, 4), (20, 0)]
    wallsX := [⟨0, 27, 0, 1⟩, ⟨0, 27, 8, -1⟩]
    wallsY := [⟨0, 8, 0, 1⟩, ⟨0, 8, 27, -1⟩]
    dims := (28, 9) }

def shape7 : ShapeDef :=
  { doors := [(0, 4), (27, 4)]
    wallsX := [⟨0, 27, 2, 1⟩, ⟨0, 27, 6, -1⟩]
    wallsY := [⟨2, 6, 0, 1⟩, ⟨2, 6, 27, -1⟩]
    dims := (28, 5) }

def shape8 : ShapeDef :=
  { doors := [(7, 0), (0, 4), (0, 11), (20, 0), (7, 15), (20, 15), (27, 4), (27, 11)]
    wallsX := [⟨0, 27, 0, 1⟩, ⟨0, 27, 15, -1⟩]
    wallsY := [⟨0, 15, 0, 1⟩, ⟨0, 15, 27, -1⟩]
    dims := (28, 16) }

def shape9 : ShapeDef :=
  { doors := [(20, 0), (27, 4), (7, 15), (20, 15), (13, 4), (0, 11), (27, 11), (7, 7)]
    wallsX := [⟨0, 13, 7, 1⟩, ⟨13, 27, 0, 1⟩, ⟨0, 27, 15, -1⟩]
    wallsY := [⟨7, 15, 0, 1⟩, ⟨0, 7, 13, 1⟩, ⟨0, 15, 27, -1⟩]
    dims := (28, 16) }

def shape10 : ShapeDef :=
  { doors := [(0, 4), (14, 4), (7, 0), (20, 7), (7, 15), (20, 15), (0, 11), (27, 11)]
    wallsX := [⟨0, 14, 0, 1⟩, ⟨14, 27, 7, 1⟩, ⟨0, 27, 15, -1⟩]
    wallsY := [⟨0, 15, 0, 1⟩, ⟨0, 7, 14, -1⟩, ⟨7, 15, 27, -1⟩]
    dims := (28, 16) }

def shape11 : ShapeDef :=
  { doors := [(0, 4), (7, 8), (7, 0), (13, 11), (20, 0), (27, 4), (20, 15), (27, 11)]
    wallsX := [⟨0, 27, 0, 1⟩, ⟨0, 13, 8, -1⟩, ⟨13, 27, 15, -1⟩]
    wallsY := [⟨0, 8, 0, 1⟩, ⟨8, 15, 13, 1⟩, ⟨0, 15, 27, -1⟩]
    dims := (28, 16) }

def shape12 : ShapeDef :=
  { doors := [(0, 4), (7, 0), (20, 0), (14, 11), (27, 4), (7, 15), (0, 11), (20, 8)]
    wallsX := [⟨0, 27, 0, 1⟩, ⟨14, 27, 8, -1⟩, ⟨0, 14, 15, -1⟩]
    wallsY := [⟨0, 15, 0, 1⟩, ⟨8, 15, 14, -1⟩, ⟨0, 8, 27, -1⟩]
    dims := (28, 16) }

def allShapes : List ShapeDef :=
  [shape1, shape2, shape3, shape4, shape5, shape6,
   shape7, shape8, shape9, shape10, shape11, shape12]

/-! ## Door-to-wall association build (lines 2452-2462)

For each door the source scans the X walls and records the first match
(the loop breaks), then scans the Y walls recording every match (no
break). -/

structure DoorWall where
  door : Int × Int
  wall : Wall
  axis : Axis
deriving DecidableEq, Repr

def doorMatchesX (d : Int × Int) (w : Wall) : Bool :=
  w.wMin ≤ d.1 ∧ d.1 ≤ w.wMax ∧ d.2 = w.lvl

def doorMatchesY (d : Int × Int) (w : Wall) : Bool :=
  w.wMin ≤ d.2 ∧ d.2 ≤ w.wMax ∧ d.1 = w.lvl

def doorWalls (sh : ShapeDef) : List DoorWall :=
  sh.doors.flatMap fun d =>
    (match sh.wallsX.find? (doorMatchesX d) with
      | some w => [⟨d, w, Axis.X⟩]
      | none => []) ++
    (sh.wallsY.filter (doorMatchesY d)).map fun w => ⟨d, w, Axis.Y⟩

/-! ## Door-blocking cell query (`Room.Info.inFrontOfDoor`, lines 2505-2511) -/

def inFrontOfDoor (sh : ShapeDef) (x y : Int) : Option (Int × Int) :=
  (doorWalls sh).findSome? fun dw =>
    match dw.axis with
    | Axis.X => if dw.door.1 = x ∧ y - dw.door.2 = dw.wall.dir then some dw.door else none
    | Axis.Y => if dw.door.2 = y ∧ x - dw.door.1 = dw.wall.dir then some dw.door else none

/-! ## Door state and the blocking tracker (`Entity.updateBlockedDoor`,
lines 1477-1491, and `Door`, lines 2201-2263)

A runtime door is its `doorItem` `[x, y, exists]` plus the
`blockingCount` field of the `Door` graphics item.  `updateBlockedDoor`
walks the scene's doors and updates the first one whose position matches
the blocked door, then breaks. -/

structure DoorState where
  dx : Int
  dy : Int
  exs : Bool
  blockingCount : Int
deriving DecidableEq, Repr

/-- The body of the `for door in ... if door.doorItem[:2] == blockedDoor[:2]`
match in `updateBlockedDoor`: recompute the canonical-state flag, apply the
count delta (`val and -1 or 1`), and close the door when it was open,
canonical, and the mutation is finalizing (`not countOnly`). -/
def doorDelta (d : DoorState) (val countOnly : Bool) : DoorState :=
  let doorFollowsBlockRule : Bool := (d.blockingCount == 0) == d.exs
  let bc := d.blockingCount + (if val then -1 else 1)
  let ex := if doorFollowsBlockRule ∧ d.exs ∧ ¬countOnly then bc == 0 else d.exs
  { d with blockingCount := bc, exs := ex }

/-- Apply `f` to the first list element satisfying `p` (the loop breaks
after the match). -/
def updateFirst {α : Type} (p : α → Bool) (f : α → α) : List α → List α
  | [] => []
  | a :: as => if p a then f a :: as else a :: updateFirst p f as

def updateBlockedDoor (sh : ShapeDef) (doors : List DoorState)
    (entX entY : Int) (blocksDoor val countOnly : Bool) : List DoorState :=
  if blocksDoor then
    match inFrontOfDoor sh entX entY with
    | some bd =>
        updateFirst (fun d => d.dx = bd.1 ∧ d.dy = bd.2) (fun d => doorDelta d val countOnly) doors
    | none => doors
  else doors

/-- `Door.mouseDoubleClickEvent` (lines 2257-2263): unconditionally flip the
`exists` flag of the clicked door. -/
def toggleDoor (doors : List DoorState) (x y : Int) : List DoorState :=
  updateFirst (fun d => d.dx = x ∧ d.dy = y) (fun d => { d with exs := !d.exs }) doors

/-- Fresh doors for a shape: each catalog door slot with `exists = true` and
a zero blocking count (`Door.__init__` line 2211, `door.append(True)` line
2455). -/
def freshDoors (sh : ShapeDef) : List DoorState :=
  sh.doors.map fun d => ⟨d.1, d.2, true, 0⟩

end BasementRenovator

/-- C6: with `hasExtraFrames = false`, the pit resolver maps the neighbor
pattern with only `L` occupied to frame 1, and the pattern
`L = U = R = D = true`, `UL = UR = true`, `DL = DR = false` to frame 24
(the later "not DL and not DR" rule overriding the base-sum and earlier
corner rules). -/
theorem pitFrame_test_vectors :
    BasementRenovator.getPitFrame true false false false false false false false false = 1 ∧
    BasementRenovator.getPitFrame true true true true true false true false false = 24 := by
  constructor <;> rfl

namespace BasementRenovator

/-- `doorDelta` never turns a closed door open: the only assignment to
`exists` is guarded by `door.exists` being true. -/
theorem doorDelta_exs_false (d : DoorState) (val countOnly : Bool)
    (h : d.exs = false) : (doorDelta d val countOnly).exs = false := by
  simp [doorDelta, h]

theorem updateFirst_exs_false (p : DoorState → Bool) (f : DoorState → DoorState)
    (hf : ∀ d, d.exs = false → (f d).exs = false) :
    ∀ (l : List DoorState) (j : Nat),
      (l.get? j).map DoorState.exs = some false →
      ((updateFirst p f l).get? j).map DoorState.exs = some false := by
  intro l
  induction l with
  | nil => intro j h; simp [updateFirst] at h
  | cons a as ih =>
      intro j h
      by_cases hp : p a
      · cases j with
        | zero =>
            have ha : a.exs = false := by simp at h; exact h
            simpa [updateFirst, hp] using hf a ha
        | succ n =>
            have h' : (as.get? n).map DoorState.exs = some false := by simpa using h
            simpa [updateFirst, hp] using h'
      · cases j with
        | zero => simpa [updateFirst, hp] using h
        | succ n =>
            have h' := ih n (by simpa using h)
            simpa [updateFirst, hp] using h'

end BasementRenovator

/-- C3: the door-blocking tracker never auto-opens a door.  For every
mutation processed by `updateBlockedDoor` (any coordinates, blocking flag,
add/remove direction, count-only or not), a door whose `exists` flag was
false beforehand still has it false afterwards. -/
theorem updateBlockedDoor_never_opens (sh : BasementRenovator.ShapeDef)
    (doors : List BasementRenovator.DoorState) (entX entY : Int)
    (blocksDoor val countOnly : Bool) (j : Nat)
    (h : (doors.get? j).map BasementRenovator.DoorState.exs = some false) :
    ((BasementRenovator.updateBlockedDoor sh doors entX entY blocksDoor val countOnly).get? j).map
      BasementRenovator.DoorState.exs = some false := by
  unfold BasementRenovator.updateBlockedDoor
  by_cases hb : blocksDoor
  · simp only [hb, if_pos]
    cases BasementRenovator.inFrontOfDoor sh entX entY with
    | none => exact h
    | some bd =>
        exact BasementRenovator.updateFirst_exs_false _ _
          (fun d hd => BasementRenovator.doorDelta_exs_false d val countOnly hd) doors j h
  · simpa [hb] using h

/-- Witness for C3 at a concrete closed door and mutation. -/
theorem updateBlockedDoor_never_opens_witness :
    ((BasementRenovator.updateBlockedDoor BasementRenovator.shape1
        [⟨7, 0, false, 0⟩] 7 1 true false false).get? 0).map
      BasementRenovator.DoorState.exs = some false :=
  updateBlockedDoor_never_opens BasementRenovator.shape1
    [⟨7, 0, false, 0⟩] 7 1 true false false 0 (by decide)

namespace BasementRenovator

/-! ## Rock-frame pairing (`Entity.setRockFrame`, lines 1605-1669)

Only the deterministic part is embedded: the seed gate (`seed & 3 != 0`
returns before any pairing) and the construction of the grouping candidate
list from the right, down, and down-right neighbor stacks.  The random
base-variant pick and the final `random.choice` draw consume the seeded
generator and are not needed by the candidate-set claims. -/

structure REnt where
  img : Nat
  rockFrame : Option Nat
deriving DecidableEq, Repr

/-- `findMatchInStack`: first entity in the stack whose rendered image
matches this rock's image. -/
def findMatchInStack (rockImg : Nat) (stack : List REnt) : Option REnt :=
  stack.find? fun e => e.img == rockImg

/-- The candidate grouping list built by `setRockFrame`: `"2x1"` if the
right stack's first image match is unassigned, then `"1x2"` for down, and
`"2x2"` only when both are present and the down-right stack's first image
match is unassigned too.  When `seed & 3 != 0` the pairing pass is not
attempted at all. -/
def rockCandidatesCore (rockImg : Nat) (right down downRight : List REnt) : List String :=
  let c1 := match findMatchInStack rockImg right with
    | some r => if r.rockFrame = none then ["2x1"] else []
    | none => []
  let candidates := c1 ++
    (match findMatchInStack rockImg down with
      | some d => if d.rockFrame = none then ["1x2"] else []
      | none => [])
  if candidates.length = 2 then
    match findMatchInStack rockImg downRight with
    | some dr => if dr.rockFrame = none then candidates ++ ["2x2"] else candidates
    | none => candidates
  else candidates

def rockCandidates (seed : Nat) (rockImg : Nat)
    (right down downRight : List REnt) : List String :=
  if seed &&& 3 ≠ 0 then []
  else rockCandidatesCore rockImg right down downRight

theorem rockCandidates_of_gate {seed rockImg : Nat}
    {right down downRight : List REnt} (hseed : seed &&& 3 = 0) :
    rockCandidates seed rockImg right down downRight =
      rockCandidatesCore rockImg right down downRight := by
  simp [rockCandidates, hseed]

end BasementRenovator

/-- C7 counterexample: the claim judges candidacy by whether the neighbor
stack *contains* a matching unassigned placement, but the code only
inspects the *first* image match in the stack.  With the pairing pass
running (`seed & 3 = 0`), a right stack whose first image match is already
assigned but which also contains a matching unassigned placement, and an
empty down stack, the claim demands the candidate set `{"2x1"}` while the
code produces the empty set. -/
theorem rockCandidates_first_match_counterexample :
    (∃ e ∈ [BasementRenovator.REnt.mk 5 (some 0), BasementRenovator.REnt.mk 5 none],
        e.img = 5 ∧ e.rockFrame = none) ∧
    ¬ (∃ e ∈ ([] : List BasementRenovator.REnt), e.img = 5 ∧ e.rockFrame = none) ∧
    (0 : Nat) &&& 3 = 0 ∧
    BasementRenovator.rockCandidates 0 5
      [BasementRenovator.REnt.mk 5 (some 0), BasementRenovator.REnt.mk 5 none] [] [] ≠ ["2x1"] := by
  refine ⟨⟨⟨5, none⟩, by decide, by decide⟩, by decide, by decide, by decide⟩

/-- C7 amended: judging by the *first* image match of each stack (as the
code does), when the pairing pass runs (`seed & 3 = 0`): if the right
stack's first image match is unassigned and the down stack has no
unassigned first image match, the candidate set is exactly `{"2x1"}`; if
the first image matches of right, down, and down-right are all unassigned,
the candidate set is exactly `{"2x1", "1x2", "2x2"}`; and in every case
`"2x2"` is a candidate only when `"2x1"` and `"1x2"` both are. -/
theorem rockCandidates_candidate_sets (seed rockImg : Nat)
    (right down downRight : List BasementRenovator.REnt)
    (hseed : seed &&& 3 = 0) :
    ((∃ r, BasementRenovator.findMatchInStack rockImg right = some r ∧ r.rockFrame = none) →
      ¬ (∃ d, BasementRenovator.findMatchInStack rockImg down = some d ∧ d.rockFrame = none) →
      BasementRenovator.rockCandidates seed rockImg right down downRight = ["2x1"]) ∧
    ((∃ r, BasementRenovator.findMatchInStack rockImg right = some r ∧ r.rockFrame = none) →
      (∃ d, BasementRenovator.findMatchInStack rockImg down = some d ∧ d.rockFrame = none) →
      (∃ e, BasementRenovator.findMatchInStack rockImg downRight = some e ∧ e.rockFrame = none) →
      BasementRenovator.rockCandidates seed rockImg right down downRight =
        ["2x1", "1x2", "2x2"]) ∧
    ("2x2" ∈ BasementRenovator.rockCandidates seed rockImg right down downRight →
      "2x1" ∈ BasementRenovator.rockCandidates seed rockImg right down downRight ∧
      "1x2" ∈ BasementRenovator.rockCandidates seed rockImg right down downRight) := by
  rw [BasementRenovator.rockCandidates_of_gate hseed]
  refine ⟨?_, ?_, ?_⟩
  · rintro ⟨r, hr, hrf⟩ hd
    unfold BasementRenovator.rockCandidatesCore
    cases hdown : BasementRenovator.findMatchInStack rockImg down with
    | none => simp [hr, hrf, hdown]
    | some d =>
        have hdf : ¬ d.rockFrame = none := fun h => hd ⟨d, hdown, h⟩
        simp [hr, hrf, hdown, hdf]
  · rintro ⟨r, hr, hrf⟩ ⟨d, hd, hdf⟩ ⟨e, he, hef⟩
    unfold BasementRenovator.rockCandidatesCore
    simp [hr, hrf, hd, hdf, he, hef]
  · unfold BasementRenovator.rockCandidatesCore
    cases h1 : BasementRenovator.findMatchInStack rockImg right with
    | none =>
        cases h2 : BasementRenovator.findMatchInStack rockImg down with
        | none => simp
        | some d => cases hdf : d.rockFrame <;> simp [hdf]
    | some r =>
        cases hrf : r.rockFrame with
        | some _ =>
            cases h2 : BasementRenovator.findMatchInStack rockImg down with
            | none => simp [hrf]
            | some d => cases hdf : d.rockFrame <;> simp [hrf, hdf]
        | none =>
            cases h2 : BasementRenovator.findMatchInStack rockImg down with
            | none => simp [hrf]
            | some d =>
                cases hdf : d.rockFrame with
                | some _ => simp [hrf, hdf]
                | none =>
                    cases h3 : BasementRenovator.findMatchInStack rockImg downRight with
                    | none => simp [hrf, hdf]
                    | some e => cases hef : e.rockFrame <;> simp [hrf, hdf, hef]

/-- Witness for C7's amended theorem: all three neighbor stacks hold an
unassigned matching rock, so the candidate set is the full
`{"2x1", "1x2", "2x2"}`. -/
theorem rockCandidates_candidate_sets_witness :
    BasementRenovator.rockCandidates 0 5
      [⟨5, none⟩] [⟨5, none⟩] [⟨5, none⟩] = ["2x1", "1x2", "2x2"] :=
  (rockCandidates_candidate_sets 0 5 [⟨5, none⟩] [⟨5, none⟩] [⟨5, none⟩] (by decide)).2.1
    ⟨⟨5, none⟩, by decide, rfl⟩ ⟨⟨5, none⟩, by decide, rfl⟩ ⟨⟨5, none⟩, by decide, rfl⟩

namespace BasementRenovator

/-! ## Bounds tests and boundary snapping (`Room.Info._axisBounds` lines
2513-2515, `Room.Info.snapToBounds` lines 2524-2533) -/

/-- `_axisBounds(a, c, w)`: the point is unconstrained by the wall, or lies
on the wall's `dir` side (`sign(c - lvl) == dir` via the Python idiom
`(c > lvl) - (c < lvl)`). -/
def axisBounds (a c : Int) (w : Wall) : Bool :=
  a < w.wMin ∨ a > w.wMax ∨
    ((if c > w.lvl then (1 : Int) else 0) - (if c < w.lvl then 1 else 0)) = w.dir

/-- One snapping pass along one axis: walk the wall list in order, and for
each wall violated by the *current* point set the cross coordinate to
`lvl + dir * dist`.  `a` is the span coordinate (fixed during the pass),
the accumulator is the cross coordinate. -/
def snapPass (a dist : Int) (walls : List Wall) (c : Int) : Int :=
  walls.foldl (fun c0 w => if ¬ axisBounds a c0 w then w.lvl + w.dir * dist else c0) c

/-- `snapToBounds`: the X-wall loop mutates `y`, then the Y-wall loop
mutates `x` using the updated `y`. -/
def snapToBounds (sh : ShapeDef) (x y dist : Int) : Int × Int :=
  let y1 := snapPass x dist sh.wallsX y
  let x1 := snapPass y1 dist sh.wallsY x
  (x1, y1)

/-- Modelled from the claim's words for comparison: segments evaluated
independently, every violation judged against the *input* point `(x, y)`,
last-applied assignment winning. -/
def snapToBoundsIndependent (sh : ShapeDef) (x y dist : Int) : Int × Int :=
  let y1 := sh.wallsX.foldl
    (fun c0 w => if ¬ axisBounds x y w then w.lvl + w.dir * dist else c0) y
  let x1 := sh.wallsY.foldl
    (fun c0 w => if ¬ axisBounds y x w then w.lvl + w.dir * dist else c0) x
  (x1, y1)

end BasementRenovator

/-- C9 counterexample: on shape 9 (the mirrored-L room) at input point
`(13, 0)` with `dist = 1`, judging every violation against the input point
(as the claim states) yields `(14, 1)`, but the code judges each segment
against the partially-updated point and yields `(13, 8)`. -/
theorem snapToBounds_not_input_judged :
    BasementRenovator.snapToBounds BasementRenovator.shape9 13 0 1 = (13, 8) ∧
    BasementRenovator.snapToBoundsIndependent BasementRenovator.shape9 13 0 1 = (14, 1) ∧
    ((13, 8) : Int × Int) ≠ (14, 1) := by
  refine ⟨by decide, by decide, by decide⟩

/-- C9 amended: `snapToBounds` runs the X-wall pass first and the Y-wall
pass second on the already-updated `y`; within a pass the segments are
evaluated sequentially in the shape's declared order, each violation is
judged against the point as updated by the earlier segments, and a violated
segment unconditionally overwrites the coordinate with `level + dir * dist`
(so the last-applied assignment wins). -/
theorem snapToBounds_sequential_semantics :
    (∀ (sh : BasementRenovator.ShapeDef) (x y dist : Int),
      BasementRenovator.snapToBounds sh x y dist =
        (BasementRenovator.snapPass (BasementRenovator.snapPass x dist sh.wallsX y)
            dist sh.wallsY x,
          BasementRenovator.snapPass x dist sh.wallsX y)) ∧
    (∀ (a dist c : Int), BasementRenovator.snapPass a dist [] c = c) ∧
    (∀ (a dist c : Int) (ws : List BasementRenovator.Wall) (w : BasementRenovator.Wall),
      BasementRenovator.snapPass a dist (ws ++ [w]) c =
        (let c0 := BasementRenovator.snapPass a dist ws c
         if ¬ BasementRenovator.axisBounds a c0 w then w.lvl + w.dir * dist else c0)) := by
  refine ⟨fun sh x y dist => rfl, fun a dist c => rfl, fun a dist c ws w => ?_⟩
  simp [BasementRenovator.snapPass, List.foldl_append]

namespace BasementRenovator

/-! ## Grid placement index (`Entity.__init__` lines 1367-1396,
`Entity.updateCoords` lines 1423-1475, `Entity.remove` lines 1906-1912)

A scene entity is its identity plus grid coordinates and z-value.  Rows
are implicit: an entity is a child of `roomRows[y]` exactly when its
`entity.y` is `y`, so the scene is modelled as a flat list.  The
`zValue` of a fresh `QGraphicsItem` is `0`, and the adding branch of
`updateCoords` (parent not yet set) returns before any depth assignment,
so a newly constructed entity keeps z-value `0`. -/

structure Ent where
  eid : Nat
  x : Int
  y : Int
  z : Int
deriving DecidableEq, Repr

/-- `entsInCoord(x, y)` inside `updateCoords`: the entities of row `y`
with matching `x`, excluding `self`. -/
def entsInCoord (s : List Ent) (i : Nat) (x y : Int) : List Ent :=
  s.filter fun e => e.x = x ∧ e.y = y ∧ e.eid ≠ i

/-- Entity construction (`Entity.__init__`): the new item is parented into
the scene by the adding branch of `updateCoords`, which returns before
touching the z-value, so the placement appears with the default z of 0. -/
def insertNew (s : List Ent) (i : Nat) (x y : Int) : List Ent :=
  s ++ [⟨i, x, y, 0⟩]

/-- The destination shift-up loop of `updateCoords` (`z2 >= depth` gets
`z2 + 1`), applied per entity. -/
def shiftUp (i : Nat) (x y d : Int) (e2 : Ent) : Ent :=
  if e2.eid ≠ i ∧ e2.x = x ∧ e2.y = y ∧ e2.z ≥ d then { e2 with z := e2.z + 1 } else e2

/-- The source gap-close loop of `updateCoords` (`z2 > z` gets `z2 - 1`),
applied per entity; `ox, oy, oz` are the moved entity's old coordinates
and old z-value. -/
def gapClose (i : Nat) (ox oy oz : Int) (e2 : Ent) : Ent :=
  if e2.eid ≠ i ∧ e2.x = ox ∧ e2.y = oy ∧ e2.z > oz then { e2 with z := e2.z - 1 } else e2

/-- The final self-update of `updateCoords`: `setZValue(depth)` plus the
coordinate assignment. -/
def setSelf (i : Nat) (x y d : Int) (e2 : Ent) : Ent :=
  if e2.eid = i then { e2 with x := x, y := y, z := d } else e2

/-- `Entity.updateCoords(x, y, depth)` for an entity already in the scene
(the non-adding path), acting on the entity with identity `i`. -/
def updateCoords (s : List Ent) (i : Nat) (x y depth : Int) : List Ent :=
  match s.find? (fun e2 => e2.eid == i) with
  | none => s
  | some e =>
      let z := e.z
      let moving := e.x ≠ x ∨ e.y ≠ y
      if (depth < 0 ∧ moving) ∨ depth ≠ z then
        let depth' := if depth < 0 then ((entsInCoord s i x y).length : Int) else depth
        let s1 := if depth < 0 then s else s.map (shiftUp i x y depth')
        let s2 := if moving then s1.map (gapClose i e.x e.y z) else s1
        s2.map (setSelf i x y depth')
      else
        s.map fun e2 => if e2.eid = i then { e2 with x := x, y := y } else e2

/-- `Entity.remove`: the item is detached from the scene; no z-value of any
remaining entity is touched. -/
def removeEnt (s : List Ent) (i : Nat) : List Ent :=
  s.filter fun e => e.eid ≠ i

def cellEnts (s : List Ent) (x y : Int) : List Ent :=
  s.filter fun e => e.x = x ∧ e.y = y

/-- The multiset of depths (z-values) present at one cell. -/
def depthsAt (s : List Ent) (x y : Int) : Multiset Int :=
  ((cellEnts s x y).map Ent.z : List Int)

/-- The depth multiset `{0, ..., n-1}` demanded by the spec's invariant. -/
def rangeZ (n : Nat) : Multiset Int :=
  (Multiset.range n).map fun k : Nat => (k : Int)

theorem rangeZ_succ (n : Nat) : rangeZ (n + 1) = (n : Int) ::ₘ rangeZ n := by
  simp [rangeZ, Multiset.range_succ]

theorem mem_rangeZ {n : Nat} {z : Int} : z ∈ rangeZ n ↔ 0 ≤ z ∧ z < (n : Int) := by
  rw [rangeZ, Multiset.mem_map]
  constructor
  · rintro ⟨a, ha, rfl⟩
    rw [Multiset.mem_range] at ha
    omega
  · rintro ⟨h0, hn⟩
    exact ⟨z.toNat, Multiset.mem_range.mpr (by omega), by omega⟩

theorem card_rangeZ (n : Nat) : Multiset.card (rangeZ n) = n := by
  simp [rangeZ]

theorem rangeZ_map_id {n : Nat} {d : Int} (h : (n : Int) ≤ d + 1) :
    (rangeZ n).map (fun zz => if zz > d then zz - 1 else zz) = rangeZ n := by
  rw [Multiset.map_congr rfl (fun z hz => ?_), Multiset.map_id]
  have := (mem_rangeZ.mp hz).2
  simp only [id_eq, ite_eq_right_iff]
  intro hgt
  omega

/-- Erasing depth `d` from `{0, ..., k}` and closing the gap (decrementing
every depth above `d`) yields exactly `{0, ..., k-1}`. -/
theorem map_dec_erase_rangeZ :
    ∀ (k : Nat) (d : Int), d ∈ rangeZ (k + 1) →
      ((rangeZ (k + 1)).erase d).map (fun zz => if zz > d then zz - 1 else zz) = rangeZ k := by
  intro k
  induction k with
  | zero =>
      intro d hd
      have : d = 0 := by
        have := mem_rangeZ.mp hd
        omega
      subst this
      decide
  | succ k ih =>
      intro d hd
      rcases mem_rangeZ.mp hd with ⟨h0, hlt⟩
      by_cases hdk : d = ((k + 1 : Nat) : Int)
      · subst hdk
        rw [rangeZ_succ, Multiset.erase_cons_head]
        exact rangeZ_map_id (by push_cast; omega)
      · have hdmem : d ∈ rangeZ (k + 1) := mem_rangeZ.mpr ⟨h0, by push_cast at hlt ⊢; omega⟩
        rw [rangeZ_succ, Multiset.erase_cons_tail, Multiset.map_cons, ih d hdmem]
        · have hk : (((k + 1 : Nat) : Int)) > d := by
            rcases mem_rangeZ.mp hdmem with ⟨-, h⟩
            push_cast at h ⊢
            omega
          rw [if_pos hk, rangeZ_succ]
          congr 1
          push_cast
          ring
        · exact fun h => hdk h.symm

/-- In a scene with pairwise distinct identities, every entity left after
erasing `e` has an identity different from `e`'s. -/
theorem eid_ne_of_erase :
    ∀ (s : List Ent) (e : Ent) (i : Nat),
      (s.map Ent.eid).Nodup → e ∈ s → e.eid = i → ∀ b ∈ s.erase e, b.eid ≠ i := by
  intro s
  induction s with
  | nil => intro e i _ he; cases he
  | cons a as ih =>
      intro e i hnd he hei b hb
      rw [List.map_cons, List.nodup_cons] at hnd
      obtain ⟨ha, hnd'⟩ := hnd
      by_cases hae : a = e
      · subst hae
        rw [List.erase_cons_head] at hb
        intro hbi
        exact ha (List.mem_map.mpr ⟨b, hb, hbi.trans hei.symm⟩)
      · have he' : e ∈ as := by
          rcases List.mem_cons.mp he with h | h
          · exact absurd h.symm hae
          · exact h
        rw [List.erase_cons_tail] at hb
        · rcases List.mem_cons.mp hb with rfl | hb'
          · intro hbi
            exact ha (List.mem_map.mpr ⟨e, he', hei.trans hbi.symm⟩)
          · exact ih e i hnd' he' hei b hb'
        · simp [hae]

theorem depthsAt_perm {s s' : List Ent} (h : s.Perm s') (x y : Int) :
    depthsAt s x y = depthsAt s' x y := by
  exact Multiset.coe_eq_coe.mpr ((h.filter _).map _)

theorem setSelf_of_ne {i : Nat} {x y d : Int} {e2 : Ent} (h : e2.eid ≠ i) :
    setSelf i x y d e2 = e2 := by
  simp [setSelf, h]

theorem gapClose_eid (i : Nat) (ox oy oz : Int) (e2 : Ent) :
    (gapClose i ox oy oz e2).eid = e2.eid := by
  unfold gapClose; split <;> rfl

theorem gapClose_x (i : Nat) (ox oy oz : Int) (e2 : Ent) :
    (gapClose i ox oy oz e2).x = e2.x := by
  unfold gapClose; split <;> rfl

theorem gapClose_y (i : Nat) (ox oy oz : Int) (e2 : Ent) :
    (gapClose i ox oy oz e2).y = e2.y := by
  unfold gapClose; split <;> rfl

theorem gapClose_of_not_cell {i : Nat} {ox oy oz : Int} {e2 : Ent}
    (h : ¬(e2.x = ox ∧ e2.y = oy)) : gapClose i ox oy oz e2 = e2 := by
  unfold gapClose
  rw [if_neg]
  tauto

theorem gapClose_at_cell {i : Nat} {ox oy oz : Int} {e2 : Ent}
    (hb : e2.eid ≠ i) (hx : e2.x = ox) (hy : e2.y = oy) :
    gapClose i ox oy oz e2 = { e2 with z := if e2.z > oz then e2.z - 1 else e2.z } := by
  unfold gapClose
  by_cases hz : e2.z > oz
  · rw [if_pos ⟨hb, hx, hy, hz⟩, if_pos hz]
  · rw [if_neg (by tauto), if_neg hz]

theorem cellEnts_cons (b : Ent) (t : List Ent) (x y : Int) :
    cellEnts (b :: t) x y =
      if b.x = x ∧ b.y = y then b :: cellEnts t x y else cellEnts t x y := by
  by_cases h : b.x = x ∧ b.y = y <;>
    simp [cellEnts, List.filter_cons, h]

/-- The composite per-entity update of a topmost move (`gapClose` at the
source, then `setSelf`) leaves the destination cell's other occupants
untouched, provided the source cell differs from the destination. -/
theorem cellEnts_map_move_dest {i : Nat} {ox oy oz cx cy d' : Int}
    (hne : ¬(ox = cx ∧ oy = cy)) :
    ∀ t : List Ent, (∀ b ∈ t, b.eid ≠ i) →
      cellEnts ((t.map (gapClose i ox oy oz)).map (setSelf i cx cy d')) cx cy =
        cellEnts t cx cy := by
  intro t
  induction t with
  | nil => intro _; rfl
  | cons b t ih =>
      intro hfree
      have hb : b.eid ≠ i := hfree b (List.mem_cons_self b t)
      have hrest := ih fun b' hb' => hfree b' (List.mem_cons_of_mem b hb')
      have hss : setSelf i cx cy d' (gapClose i ox oy oz b) = gapClose i ox oy oz b :=
        setSelf_of_ne (by rw [gapClose_eid]; exact hb)
      by_cases hcell : b.x = cx ∧ b.y = cy
      · have hgc : gapClose i ox oy oz b = b :=
          gapClose_of_not_cell (fun hc => hne ⟨hc.1 ▸ hcell.1, hc.2 ▸ hcell.2⟩)
        have hcomp : setSelf i cx cy d' (gapClose i ox oy oz b) = b := by rw [hss, hgc]
        rw [List.map_cons, List.map_cons, cellEnts_cons, cellEnts_cons, hcomp]
        rw [if_pos hcell, if_pos hcell, hrest]
      · have hxy : ¬((gapClose i ox oy oz b).x = cx ∧ (gapClose i ox oy oz b).y = cy) := by
          rw [gapClose_x, gapClose_y]; exact hcell
        rw [List.map_cons, List.map_cons, cellEnts_cons, cellEnts_cons, hss]
        rw [if_neg hxy, if_neg hcell, hrest]

/-- At the source cell, the composite per-entity update of a topmost move
decrements exactly the depths above the mover's old depth. -/
theorem cellEnts_map_move_src {i : Nat} {ox oy oz cx cy d' : Int} :
    ∀ t : List Ent, (∀ b ∈ t, b.eid ≠ i) →
      (cellEnts ((t.map (gapClose i ox oy oz)).map (setSelf i cx cy d')) ox oy).map Ent.z =
        (cellEnts t ox oy).map fun e2 => if e2.z > oz then e2.z - 1 else e2.z := by
  intro t
  induction t with
  | nil => intro _; rfl
  | cons b t ih =>
      intro hfree
      have hb : b.eid ≠ i := hfree b (List.mem_cons_self b t)
      have hrest := ih fun b' hb' => hfree b' (List.mem_cons_of_mem b hb')
      have hss : setSelf i cx cy d' (gapClose i ox oy oz b) = gapClose i ox oy oz b :=
        setSelf_of_ne (by rw [gapClose_eid]; exact hb)
      by_cases hcell : b.x = ox ∧ b.y = oy
      · have hgc := @gapClose_at_cell i ox oy oz b hb hcell.1 hcell.2
        have hcomp : setSelf i cx cy d' (gapClose i ox oy oz b) =
            { b with z := if b.z > oz then b.z - 1 else b.z } := by rw [hss, hgc]
        rw [List.map_cons, List.map_cons, cellEnts_cons, cellEnts_cons, hcomp]
        rw [if_pos (show ({ b with z := if b.z > oz then b.z - 1 else b.z} : Ent).x = ox ∧
              ({ b with z := if b.z > oz then b.z - 1 else b.z} : Ent).y = oy from hcell),
          if_pos hcell, List.map_cons, List.map_cons, hrest]
      · have hxy : ¬((gapClose i ox oy oz b).x = ox ∧ (gapClose i ox oy oz b).y = oy) := by
          rw [gapClose_x, gapClose_y]; exact hcell
        rw [List.map_cons, List.map_cons, cellEnts_cons, cellEnts_cons, hss]
        rw [if_neg hxy, if_neg hcell, hrest]

/-- Unfolding of `updateCoords` for a topmost (`depth = -1`) move of an
entity present in the scene: the gap-close pass over the source cell
followed by the self-update to the destination with depth equal to the
count of other entities at the destination. -/
theorem updateCoords_move_eq {s : List Ent} {i : Nat} {e : Ent} {cx cy : Int}
    (hf : s.find? (fun e2 => e2.eid == i) = some e)
    (hm : e.x ≠ cx ∨ e.y ≠ cy) :
    updateCoords s i cx cy (-1) =
      (s.map (gapClose i e.x e.y e.z)).map
        (setSelf i cx cy ((entsInCoord s i cx cy).length : Int)) := by
  unfold updateCoords
  rw [hf]
  dsimp only
  have hneg : (-1 : Int) < 0 := by norm_num
  rw [if_pos (Or.inl ⟨hneg, hm⟩)]
  rw [if_pos hneg, if_pos hneg, if_pos hm]

theorem gapClose_self {i : Nat} {ox oy oz : Int} {e : Ent} (hei : e.eid = i) :
    gapClose i ox oy oz e = e := by
  unfold gapClose
  rw [if_neg]
  tauto

theorem depthsAt_cons_at {e : Ent} {cx cy : Int} (t : List Ent)
    (hx : e.x = cx) (hy : e.y = cy) :
    depthsAt (e :: t) cx cy = e.z ::ₘ depthsAt t cx cy := by
  unfold depthsAt
  rw [cellEnts_cons, if_pos ⟨hx, hy⟩, List.map_cons, ← Multiset.cons_coe]

theorem depthsAt_cons_not_at {e : Ent} {cx cy : Int} (t : List Ent)
    (h : ¬(e.x = cx ∧ e.y = cy)) :
    depthsAt (e :: t) cx cy = depthsAt t cx cy := by
  unfold depthsAt
  rw [cellEnts_cons, if_neg h]

/-- The scene decomposition used by the depth theorems: an entity found by
identity, the rest of the scene, and the fact that the rest is free of that
identity. -/
theorem scene_split {s : List Ent} {i : Nat} {e : Ent}
    (hnd : (s.map Ent.eid).Nodup)
    (hf : s.find? (fun e2 => e2.eid == i) = some e) :
    e.eid = i ∧ s.Perm (e :: s.erase e) ∧ ∀ b ∈ s.erase e, b.eid ≠ i := by
  have hei : e.eid = i := by
    have h := List.find?_some hf
    simpa using h
  have hes : e ∈ s := List.mem_of_find?_eq_some hf
  exact ⟨hei, List.perm_cons_erase hes, eid_ne_of_erase s e i hnd hes hei⟩

theorem entsInCoord_eq_cellEnts {t : List Ent} {i : Nat} (cx cy : Int)
    (hfree : ∀ b ∈ t, b.eid ≠ i) :
    entsInCoord t i cx cy = cellEnts t cx cy := by
  unfold entsInCoord cellEnts
  apply List.filter_congr
  intro b hb
  have := hfree b hb
  simp [this]

theorem length_cellEnts_of_depthsAt {t : List Ent} {cx cy : Int} {m : Multiset Int}
    (h : depthsAt t cx cy = m) : (cellEnts t cx cy).length = Multiset.card m := by
  have := congrArg Multiset.card h
  simpa [depthsAt] using this

end BasementRenovator

/-- C1 counterexample: two fresh inserts into the empty cell `(0, 0)` both
receive depth 0 (the adding branch of `updateCoords` returns before any
depth assignment and a fresh `QGraphicsItem` has z-value 0), so after
`N = 2` inserts the cell's depths are `{0, 0}`, not `{0, 1}`. -/
theorem insert_depths_counterexample :
    BasementRenovator.depthsAt
      (BasementRenovator.insertNew (BasementRenovator.insertNew [] 0 0 0) 1 0 0) 0 0 =
      (0 ::ₘ 0 ::ₘ 0) ∧
    ¬ BasementRenovator.depthsAt
        (BasementRenovator.insertNew (BasementRenovator.insertNew [] 0 0 0) 1 0 0) 0 0 =
      BasementRenovator.rangeZ 2 := by
  refine ⟨by decide, by decide⟩

/-- C1 amended: only a *move* (`updateCoords` with `depth = -1` on an
entity already in the scene, targeting a different cell) assigns the
topmost depth: the mover's new depth is the count of placements already at
the destination, existing occupants keep their depths, so a destination
cell with depths `{0..k-1}` ends with `{0..k}`; a *fresh insert*, in
contrast, always enters with depth 0 regardless of the cell's occupancy
(so N fresh inserts yield N zeros, not `{0..N-1}`). -/
theorem move_insert_depth_invariant
    (s : List BasementRenovator.Ent) (i : Nat) (e : BasementRenovator.Ent)
    (cx cy : Int) (k : Nat)
    (hnd : (s.map BasementRenovator.Ent.eid).Nodup)
    (hf : s.find? (fun e2 => e2.eid == i) = some e)
    (hm : ¬(e.x = cx ∧ e.y = cy))
    (hz : BasementRenovator.depthsAt s cx cy = BasementRenovator.rangeZ k) :
    BasementRenovator.depthsAt
        (BasementRenovator.updateCoords s i cx cy (-1)) cx cy =
      BasementRenovator.rangeZ (k + 1) ∧
    ∀ (s' : List BasementRenovator.Ent) (j : Nat) (x y : Int),
      BasementRenovator.depthsAt (BasementRenovator.insertNew s' j x y) x y =
        0 ::ₘ BasementRenovator.depthsAt s' x y := by
  constructor
  · obtain ⟨hei, hperm, hfree⟩ := BasementRenovator.scene_split hnd hf
    set t := s.erase e with ht
    have hm' : e.x ≠ cx ∨ e.y ≠ cy := by tauto
    have htz : BasementRenovator.depthsAt t cx cy = BasementRenovator.rangeZ k := by
      have h1 := BasementRenovator.depthsAt_perm hperm cx cy
      rw [hz, BasementRenovator.depthsAt_cons_not_at t hm] at h1
      exact h1.symm
    have hcnt : (BasementRenovator.entsInCoord s i cx cy).length = k := by
      have hpf : (BasementRenovator.entsInCoord s i cx cy).length =
          (BasementRenovator.entsInCoord (e :: t) i cx cy).length := by
        unfold BasementRenovator.entsInCoord
        exact (hperm.filter _).length_eq
      have h3 : BasementRenovator.entsInCoord (e :: t) i cx cy =
          BasementRenovator.entsInCoord t i cx cy := by
        unfold BasementRenovator.entsInCoord
        rw [List.filter_cons, if_neg (by simp [hei])]
      have h4 := BasementRenovator.entsInCoord_eq_cellEnts cx cy hfree
      have h5 := BasementRenovator.length_cellEnts_of_depthsAt htz
      rw [hpf, h3, h4, h5, BasementRenovator.card_rangeZ]
    rw [BasementRenovator.updateCoords_move_eq hf hm']
    rw [BasementRenovator.depthsAt_perm ((hperm.map _).map _) cx cy]
    rw [List.map_cons, List.map_cons]
    rw [BasementRenovator.gapClose_self hei]
    have hsetSelf : BasementRenovator.setSelf i cx cy
        ((BasementRenovator.entsInCoord s i cx cy).length : Int) e =
        (⟨e.eid, cx, cy, ((BasementRenovator.entsInCoord s i cx cy).length : Int)⟩ :
          BasementRenovator.Ent) := by
      unfold BasementRenovator.setSelf
      rw [if_pos hei]
    rw [hsetSelf]
    rw [BasementRenovator.depthsAt_cons_at _ rfl rfl]
    unfold BasementRenovator.depthsAt
    rw [BasementRenovator.cellEnts_map_move_dest hm t hfree]
    show ((BasementRenovator.entsInCoord s i cx cy).length : Int) ::ₘ
      BasementRenovator.depthsAt t cx cy = BasementRenovator.rangeZ (k + 1)
    rw [hcnt, htz, BasementRenovator.rangeZ_succ]
  · intro s' j x y
    unfold BasementRenovator.depthsAt BasementRenovator.insertNew BasementRenovator.cellEnts
    rw [List.filter_append, List.map_append]
    have hone : List.filter (fun e => decide (e.x = x ∧ e.y = y))
        ([⟨j, x, y, 0⟩] : List BasementRenovator.Ent) = [⟨j, x, y, 0⟩] := by
      simp
    rw [hone]
    rw [Multiset.cons_coe]
    exact Multiset.coe_eq_coe.mpr (List.perm_append_singleton _ _)

/-- Witness for C1's amended theorem: moving entity 1 from `(5, 5)` onto
cell `(0, 0)`, which holds one placement at depth 0, yields depths
`{0, 1}`. -/
theorem move_insert_depth_invariant_witness :
    BasementRenovator.depthsAt
        (BasementRenovator.updateCoords
          [⟨0, 0, 0, 0⟩, ⟨1, 5, 5, 0⟩] 1 0 0 (-1)) 0 0 =
      BasementRenovator.rangeZ 2 :=
  (move_insert_depth_invariant [⟨0, 0, 0, 0⟩, ⟨1, 5, 5, 0⟩] 1 ⟨1, 5, 5, 0⟩ 0 0 1
    (by decide) (by decide) (by decide) (by decide)).1

/-- C4 counterexample: `Entity.remove` detaches the item without touching
any remaining z-value, so removing the depth-0 placement from a cell with
depths `{0, 1}` leaves `{1}`, not `{0}` — no gap is closed. -/
theorem remove_depth_gap_counterexample :
    BasementRenovator.removeEnt [⟨0, 0, 0, 0⟩, ⟨1, 0, 0, 1⟩] 0 = [⟨1, 0, 0, 1⟩] ∧
    ¬ BasementRenovator.depthsAt
        (BasementRenovator.removeEnt [⟨0, 0, 0, 0⟩, ⟨1, 0, 0, 1⟩] 0) 0 0 =
      BasementRenovator.rangeZ 1 := by
  refine ⟨by decide, by decide⟩

/-- C4 amended: `Entity.remove` leaves the remaining depths of the cell
unchanged (the removed depth `d` simply disappears, leaving
`{0,...,N-1} \ {d}`); the depth gap is closed only by the moving branch of
`updateCoords`, which decrements every remaining depth exceeding the
mover's old depth at the old cell, leaving exactly `{0,...,N-2}` there. -/
theorem remove_vs_move_gap
    (s : List BasementRenovator.Ent) (i : Nat) (e : BasementRenovator.Ent)
    (cx cy : Int) (k : Nat)
    (hnd : (s.map BasementRenovator.Ent.eid).Nodup)
    (hf : s.find? (fun e2 => e2.eid == i) = some e)
    (hm : ¬(e.x = cx ∧ e.y = cy))
    (hz : BasementRenovator.depthsAt s e.x e.y = BasementRenovator.rangeZ (k + 1)) :
    BasementRenovator.depthsAt
        (BasementRenovator.updateCoords s i cx cy (-1)) e.x e.y =
      BasementRenovator.rangeZ k ∧
    BasementRenovator.depthsAt (BasementRenovator.removeEnt s i) e.x e.y =
      (BasementRenovator.rangeZ (k + 1)).erase e.z := by
  obtain ⟨hei, hperm, hfree⟩ := BasementRenovator.scene_split hnd hf
  set t := s.erase e with ht
  have hm' : e.x ≠ cx ∨ e.y ≠ cy := by tauto
  have hcons : e.z ::ₘ BasementRenovator.depthsAt t e.x e.y =
      BasementRenovator.rangeZ (k + 1) := by
    have h1 := BasementRenovator.depthsAt_perm hperm e.x e.y
    rw [hz, BasementRenovator.depthsAt_cons_at t rfl rfl] at h1
    exact h1.symm
  have htz : BasementRenovator.depthsAt t e.x e.y =
      (BasementRenovator.rangeZ (k + 1)).erase e.z := by
    rw [← hcons, Multiset.erase_cons_head]
  have hdmem : e.z ∈ BasementRenovator.rangeZ (k + 1) := by
    rw [← hcons]
    exact Multiset.mem_cons_self _ _
  constructor
  · rw [BasementRenovator.updateCoords_move_eq hf hm']
    rw [BasementRenovator.depthsAt_perm ((hperm.map _).map _) e.x e.y]
    rw [List.map_cons, List.map_cons, BasementRenovator.gapClose_self hei]
    have hsetSelf : BasementRenovator.setSelf i cx cy
        ((BasementRenovator.entsInCoord s i cx cy).length : Int) e =
        (⟨e.eid, cx, cy, ((BasementRenovator.entsInCoord s i cx cy).length : Int)⟩ :
          BasementRenovator.Ent) := by
      unfold BasementRenovator.setSelf
      rw [if_pos hei]
    rw [hsetSelf]
    rw [BasementRenovator.depthsAt_cons_not_at _
      (fun hc => hm ⟨hc.1.symm, hc.2.symm⟩)]
    unfold BasementRenovator.depthsAt
    rw [BasementRenovator.cellEnts_map_move_src t hfree]
    have hmm : (BasementRenovator.cellEnts t e.x e.y).map
        (fun e2 => if e2.z > e.z then e2.z - 1 else e2.z) =
        ((BasementRenovator.cellEnts t e.x e.y).map BasementRenovator.Ent.z).map
          (fun zz => if zz > e.z then zz - 1 else zz) := by
      rw [List.map_map]
      rfl
    rw [hmm, ← Multiset.map_coe]
    show Multiset.map _ (BasementRenovator.depthsAt t e.x e.y) = BasementRenovator.rangeZ k
    rw [htz]
    exact BasementRenovator.map_dec_erase_rangeZ k e.z hdmem
  · have h1 : BasementRenovator.depthsAt (BasementRenovator.removeEnt s i) e.x e.y =
        BasementRenovator.depthsAt (BasementRenovator.removeEnt (e :: t) i) e.x e.y := by
      unfold BasementRenovator.removeEnt
      exact BasementRenovator.depthsAt_perm (hperm.filter _) e.x e.y
    have h2 : BasementRenovator.removeEnt (e :: t) i = t := by
      unfold BasementRenovator.removeEnt
      rw [List.filter_cons, if_neg (by simp [hei])]
      exact List.filter_eq_self.mpr fun b hb => by simpa using hfree b hb
    rw [h1, h2, htz]

/-- Witness for C4's amended theorem: moving entity 0 (depth 0) away from
cell `(0, 0)`, which holds depths `{0, 1}`, leaves `{0}` there; removing it
instead leaves `{1}`. -/
theorem remove_vs_move_gap_witness :
    BasementRenovator.depthsAt
        (BasementRenovator.updateCoords
          [⟨0, 0, 0, 0⟩, ⟨1, 0, 0, 1⟩] 0 3 3 (-1)) 0 0 =
      BasementRenovator.rangeZ 1 ∧
    BasementRenovator.depthsAt
        (BasementRenovator.removeEnt [⟨0, 0, 0, 0⟩, ⟨1, 0, 0, 1⟩] 0) 0 0 =
      (BasementRenovator.rangeZ 2).erase 0 :=
  remove_vs_move_gap [⟨0, 0, 0, 0⟩, ⟨1, 0, 0, 1⟩] 0 ⟨0, 0, 0, 0⟩ 3 3 1
    (by decide) (by decide) (by decide) (by decide)

namespace BasementRenovator

/-! ## Painting and the stack-depth ceiling (`RoomEditorWidget.tryToPaint`
lines 944-986, `EntityStack.MAX_STACK_DEPTH` line 2072)

The paint handler receives already clamped (and optionally snapped)
coordinates.  It scans the scene: any entity at the target cell whose
cached `stackDepth` equals `MAX_STACK_DEPTH` rejects the paint, as does a
grid entity (`Type > 999`) at the cell when the painted object is also a
grid entity; then the `lastTile` guard suppresses repeats within one drag;
otherwise a fresh `Entity` is constructed (stack depth initialised to 1). -/

structure PEnt where
  x : Int
  y : Int
  ptype : Int
  stackDepth : Nat
deriving DecidableEq, Repr

def MAX_STACK_DEPTH : Nat := 25

def tryToPaint (scene : List PEnt) (paintID x y : Int)
    (lastTile : List (Int × Int)) : List PEnt :=
  if scene.any fun i => i.x = x ∧ i.y = y ∧
      (i.stackDepth = MAX_STACK_DEPTH ∨ (i.ptype > 999 ∧ paintID > 999)) then scene
  else if (x, y) ∈ lastTile then scene
  else scene ++ [⟨x, y, paintID, 1⟩]

def cellPEnts (scene : List PEnt) (x y : Int) : List PEnt :=
  scene.filter fun i => i.x = x ∧ i.y = y

end BasementRenovator

/-- C10: when every entity's cached `stackDepth` reflects the true
occupancy of its cell, painting into a cell that already holds
`MAX_STACK_DEPTH = 25` placements is rejected as a no-op: the scene is
returned unchanged, so no placement is created and no depth is touched. -/
theorem stack_depth_ceiling
    (scene : List BasementRenovator.PEnt) (paintID x y : Int)
    (lastTile : List (Int × Int))
    (hcount : (BasementRenovator.cellPEnts scene x y).length =
      BasementRenovator.MAX_STACK_DEPTH)
    (hacc : ∀ i ∈ scene,
      i.stackDepth = (BasementRenovator.cellPEnts scene i.x i.y).length) :
    BasementRenovator.tryToPaint scene paintID x y lastTile = scene := by
  unfold BasementRenovator.tryToPaint
  rw [if_pos]
  have hne : BasementRenovator.cellPEnts scene x y ≠ [] := by
    intro h
    rw [h] at hcount
    simp [BasementRenovator.MAX_STACK_DEPTH] at hcount
  obtain ⟨i0, hi0⟩ := List.exists_mem_of_ne_nil _ hne
  have hi0mem : i0 ∈ scene := List.mem_of_mem_filter hi0
  have hi0cell : i0.x = x ∧ i0.y = y := by
    simpa using List.of_mem_filter hi0
  have hi0depth : i0.stackDepth = BasementRenovator.MAX_STACK_DEPTH := by
    rw [hacc i0 hi0mem]
    rw [show BasementRenovator.cellPEnts scene i0.x i0.y =
      BasementRenovator.cellPEnts scene x y by rw [hi0cell.1, hi0cell.2]]
    exact hcount
  refine List.any_eq_true.mpr ⟨i0, hi0mem, ?_⟩
  simp [hi0cell.1, hi0cell.2, hi0depth]

/-- Witness for C10: a cell holding exactly 25 placements, each with an
accurate stack depth of 25, rejects the 26th paint. -/
theorem stack_depth_ceiling_witness :
    BasementRenovator.tryToPaint
        (List.replicate 25 ⟨0, 0, 0, 25⟩) 7 0 0 [] =
      List.replicate 25 ⟨0, 0, 0, 25⟩ :=
  stack_depth_ceiling (List.replicate 25 ⟨0, 0, 0, 25⟩) 7 0 0 []
    (by decide) (by decide)

namespace BasementRenovator

/-! ## Neighbor queries (`RoomScene.getAdjacentEnts` lines 703-737, cache
rebuild in `RoomScene.drawBackground` lines 885-892,
`Room.Info.gridIndex` lines 2502-2503)

Only the `x` coordinate of an entity matters to the query (its row is its
`y`); rows are the scene's `roomRows` child lists, one per grid row, in
child order.  The cache rebuild iterates the scene's entities and buckets
them by `gridIndex(x, y, width)`; it is modelled here as the row-major,
child-order traversal of the same rows. -/

structure CEnt where
  cx : Int
  tag : Nat
deriving DecidableEq, Repr

abbrev Rows := List (List CEnt)

def gridIndex (x y w : Int) : Int := y * w + x

/-- The `lookup` table of `getAdjacentEnts`: row offset `dy`, column
offset `dx` to result slot (`[L, R, U, D, UL, DL, UR, DR]` as 0..7). -/
def lookupSpot (dy dx : Int) : Option Nat :=
  if dy = -1 then
    if dx = -1 then some 4 else if dx = 0 then some 2 else if dx = 1 then some 6 else none
  else if dy = 0 then
    if dx = -1 then some 0 else if dx = 0 then none else if dx = 1 then some 1 else none
  else if dy = 1 then
    if dx = -1 then some 5 else if dx = 0 then some 3 else if dx = 1 then some 7 else none
  else none

@[ext]
structure Adj where
  L : List CEnt
  R : List CEnt
  U : List CEnt
  D : List CEnt
  UL : List CEnt
  DL : List CEnt
  UR : List CEnt
  DR : List CEnt
deriving DecidableEq, Repr

def Adj.empty : Adj := ⟨[], [], [], [], [], [], [], []⟩

def appendSlot (a : Adj) (s : Nat) (e : CEnt) : Adj :=
  match s with
  | 0 => { a with L := a.L ++ [e] }
  | 1 => { a with R := a.R ++ [e] }
  | 2 => { a with U := a.U ++ [e] }
  | 3 => { a with D := a.D ++ [e] }
  | 4 => { a with UL := a.UL ++ [e] }
  | 5 => { a with DL := a.DL ++ [e] }
  | 6 => { a with UR := a.UR ++ [e] }
  | 7 => { a with DR := a.DR ++ [e] }
  | _ => a

def setSlot (a : Adj) (s : Nat) (l : List CEnt) : Adj :=
  match s with
  | 0 => { a with L := l }
  | 1 => { a with R := l }
  | 2 => { a with U := l }
  | 3 => { a with D := l }
  | 4 => { a with UL := l }
  | 5 => { a with DL := l }
  | 6 => { a with UR := l }
  | 7 => { a with DR := l }
  | _ => a

def rowAt (rows : Rows) (yc : Int) : List CEnt :=
  if yc < 0 then [] else rows.getD yc.toNat []

/-- One item of the direct scan: `i = (xc - x) + 1`, window check, table
lookup, append into the slot. -/
def adjStep (x dy : Int) (acc2 : Adj) (item : CEnt) : Adj :=
  if -1 < item.cx - x + 1 ∧ item.cx - x + 1 < 3 then
    match lookupSpot dy (item.cx - x) with
    | some s => appendSlot acc2 s item
    | none => acc2
  else acc2

/-- `getAdjacentEnts(x, y, useCache=False)`: scan the rows `y-1, y, y+1`
(skipping out-of-range rows) appending each item into its slot. -/
def adjDirect (rows : Rows) (height x y : Int) : Adj :=
  ([y - 1, y, y + 1]).foldl
    (fun acc yc =>
      if yc < 0 ∨ yc ≥ height then acc
      else (rowAt rows yc).foldl (adjStep x (yc - y)) acc)
    Adj.empty

def flattenRowsAux : Rows → Nat → List (Nat × CEnt)
  | [], _ => []
  | row :: rest, r0 => (row.map fun e => (r0, e)) ++ flattenRowsAux rest (r0 + 1)

/-- The `entCache` rebuild of `drawBackground`: bucket every entity by its
`gridIndex`, in row-major child order. -/
def entCache (rows : Rows) (width idx : Int) : List CEnt :=
  ((flattenRowsAux rows 0).filter fun p =>
    gridIndex p.2.cx (p.1 : Int) width = idx).map Prod.snd

/-- `getAdjacentEnts(x, y, useCache=True)`: read the nine surrounding
`gridIndex` buckets, skipping only indices outside `[0, width*height)`. -/
def adjCached (rows : Rows) (width height x y : Int) : Adj :=
  ([-1, 0, 1] : List Int).foldl
    (fun acc i =>
      ([-1, 0, 1] : List Int).foldl
        (fun acc2 j =>
          match lookupSpot i j with
          | some s =>
              if gridIndex (x + j) (y + i) width < 0 ∨
                  gridIndex (x + j) (y + i) width ≥ width * height then acc2
              else setSlot acc2 s (entCache rows width (gridIndex (x + j) (y + i) width))
          | none => acc2)
        acc)
    Adj.empty

theorem adjStep_up (x : Int) (acc : Adj) (item : CEnt) :
    adjStep x (-1) acc item =
      if item.cx = x - 1 then { acc with UL := acc.UL ++ [item] }
      else if item.cx = x then { acc with U := acc.U ++ [item] }
      else if item.cx = x + 1 then { acc with UR := acc.UR ++ [item] }
      else acc := by
  by_cases h1 : item.cx = x - 1
  · rw [if_pos h1]
    unfold adjStep
    rw [h1, show x - 1 - x = -1 by ring]
    norm_num [lookupSpot, appendSlot]
  · rw [if_neg h1]
    by_cases h2 : item.cx = x
    · rw [if_pos h2]
      unfold adjStep
      rw [h2, show x - x = 0 by ring]
      norm_num [lookupSpot, appendSlot]
    · rw [if_neg h2]
      by_cases h3 : item.cx = x + 1
      · rw [if_pos h3]
        unfold adjStep
        rw [h3, show x + 1 - x = 1 by ring]
        norm_num [lookupSpot, appendSlot]
      · rw [if_neg h3]
        unfold adjStep
        rw [if_neg (by omega)]

theorem adjStep_mid (x : Int) (acc : Adj) (item : CEnt) :
    adjStep x 0 acc item =
      if item.cx = x - 1 then { acc with L := acc.L ++ [item] }
      else if item.cx = x then acc
      else if item.cx = x + 1 then { acc with R := acc.R ++ [item] }
      else acc := by
  by_cases h1 : item.cx = x - 1
  · rw [if_pos h1]
    unfold adjStep
    rw [h1, show x - 1 - x = -1 by ring]
    norm_num [lookupSpot, appendSlot]
  · rw [if_neg h1]
    by_cases h2 : item.cx = x
    · rw [if_pos h2]
      unfold adjStep
      rw [h2, show x - x = 0 by ring]
      norm_num [lookupSpot]
    · rw [if_neg h2]
      by_cases h3 : item.cx = x + 1
      · rw [if_pos h3]
        unfold adjStep
        rw [h3, show x + 1 - x = 1 by ring]
        norm_num [lookupSpot, appendSlot]
      · rw [if_neg h3]
        unfold adjStep
        rw [if_neg (by omega)]

theorem adjStep_down (x : Int) (acc : Adj) (item : CEnt) :
    adjStep x 1 acc item =
      if item.cx = x - 1 then { acc with DL := acc.DL ++ [item] }
      else if item.cx = x then { acc with D := acc.D ++ [item] }
      else if item.cx = x + 1 then { acc with DR := acc.DR ++ [item] }
      else acc := by
  by_cases h1 : item.cx = x - 1
  · rw [if_pos h1]
    unfold adjStep
    rw [h1, show x - 1 - x = -1 by ring]
    norm_num [lookupSpot, appendSlot]
  · rw [if_neg h1]
    by_cases h2 : item.cx = x
    · rw [if_pos h2]
      unfold adjStep
      rw [h2, show x - x = 0 by ring]
      norm_num [lookupSpot, appendSlot]
    · rw [if_neg h2]
      by_cases h3 : item.cx = x + 1
      · rw [if_pos h3]
        unfold adjStep
        rw [h3, show x + 1 - x = 1 by ring]
        norm_num [lookupSpot, appendSlot]
      · rw [if_neg h3]
        unfold adjStep
        rw [if_neg (by omega)]

theorem adjRow_up (x : Int) :
    ∀ (row : List CEnt) (acc : Adj),
      row.foldl (adjStep x (-1)) acc =
        { acc with UL := acc.UL ++ row.filter fun e => e.cx = x - 1,
                   U := acc.U ++ row.filter fun e => e.cx = x,
                   UR := acc.UR ++ row.filter fun e => e.cx = x + 1 } := by
  intro row
  induction row with
  | nil => intro acc; simp
  | cons item row ih =>
      intro acc
      rw [List.foldl_cons, ih, adjStep_up]
      by_cases h1 : item.cx = x - 1
      · have h2 : ¬item.cx = x := by omega
        have h3 : ¬item.cx = x + 1 := by omega
        rw [if_pos h1]
        simp [List.filter_cons, eq_true h1, eq_false h2, eq_false h3]
      · rw [if_neg h1]
        by_cases h2 : item.cx = x
        · have h3 : ¬item.cx = x + 1 := by omega
          rw [if_pos h2]
          simp [List.filter_cons, eq_false h1, eq_true h2, eq_false h3]
        · rw [if_neg h2]
          by_cases h3 : item.cx = x + 1
          · rw [if_pos h3]
            simp [List.filter_cons, eq_false h1, eq_false h2, eq_true h3]
          · rw [if_neg h3]
            simp [List.filter_cons, eq_false h1, eq_false h2, eq_false h3]

theorem adjRow_mid (x : Int) :
    ∀ (row : List CEnt) (acc : Adj),
      row.foldl (adjStep x 0) acc =
        { acc with L := acc.L ++ row.filter fun e => e.cx = x - 1,
                   R := acc.R ++ row.filter fun e => e.cx = x + 1 } := by
  intro row
  induction row with
  | nil => intro acc; simp
  | cons item row ih =>
      intro acc
      rw [List.foldl_cons, ih, adjStep_mid]
      by_cases h1 : item.cx = x - 1
      · have h3 : ¬item.cx = x + 1 := by omega
        rw [if_pos h1]
        simp [List.filter_cons, eq_true h1, eq_false h3]
      · rw [if_neg h1]
        by_cases h2 : item.cx = x
        · have h3 : ¬item.cx = x + 1 := by omega
          rw [if_pos h2]
          simp [List.filter_cons, eq_false h1, eq_false h3]
        · rw [if_neg h2]
          by_cases h3 : item.cx = x + 1
          · rw [if_pos h3]
            simp [List.filter_cons, eq_false h1, eq_true h3]
          · rw [if_neg h3]
            simp [List.filter_cons, eq_false h1, eq_false h3]

theorem adjRow_down (x : Int) :
    ∀ (row : List CEnt) (acc : Adj),
      row.foldl (adjStep x 1) acc =
        { acc with DL := acc.DL ++ row.filter fun e => e.cx = x - 1,
                   D := acc.D ++ row.filter fun e => e.cx = x,
                   DR := acc.DR ++ row.filter fun e => e.cx = x + 1 } := by
  intro row
  induction row with
  | nil => intro acc; simp
  | cons item row ih =>
      intro acc
      rw [List.foldl_cons, ih, adjStep_down]
      by_cases h1 : item.cx = x - 1
      · have h2 : ¬item.cx = x := by omega
        have h3 : ¬item.cx = x + 1 := by omega
        rw [if_pos h1]
        simp [List.filter_cons, eq_true h1, eq_false h2, eq_false h3]
      · rw [if_neg h1]
        by_cases h2 : item.cx = x
        · have h3 : ¬item.cx = x + 1 := by omega
          rw [if_pos h2]
          simp [List.filter_cons, eq_false h1, eq_true h2, eq_false h3]
        · rw [if_neg h2]
          by_cases h3 : item.cx = x + 1
          · rw [if_pos h3]
            simp [List.filter_cons, eq_false h1, eq_false h2, eq_true h3]
          · rw [if_neg h3]
            simp [List.filter_cons, eq_false h1, eq_false h2, eq_false h3]

/-- The common specification of one neighbor slot: the in-bounds row `r`
filtered to column `c` (empty when the row is out of range). -/
def dirCellRow (rows : Rows) (height r c : Int) : List CEnt :=
  if r < 0 ∨ r ≥ height then []
  else (rowAt rows r).filter fun e => e.cx = c

/-- The eight neighbor lists described cell-by-cell. -/
def adjSpec (rows : Rows) (height x y : Int) : Adj :=
  { L := dirCellRow rows height y (x - 1)
    R := dirCellRow rows height y (x + 1)
    U := dirCellRow rows height (y - 1) x
    D := dirCellRow rows height (y + 1) x
    UL := dirCellRow rows height (y - 1) (x - 1)
    DL := dirCellRow rows height (y + 1) (x - 1)
    UR := dirCellRow rows height (y - 1) (x + 1)
    DR := dirCellRow rows height (y + 1) (x + 1) }

theorem dirCellRow_out {rows : Rows} {height r : Int}
    (h : r < 0 ∨ r ≥ height) (c : Int) : dirCellRow rows height r c = [] := by
  unfold dirCellRow
  rw [if_pos h]

theorem dirCellRow_in {rows : Rows} {height r : Int}
    (h : ¬(r < 0 ∨ r ≥ height)) (c : Int) :
    dirCellRow rows height r c = (rowAt rows r).filter fun e => e.cx = c := by
  unfold dirCellRow
  rw [if_neg h]

/-- The direct row scan computes exactly the cell-by-cell specification. -/
theorem adjDirect_eq (rows : Rows) (height x y : Int) :
    adjDirect rows height x y = adjSpec rows height x y := by
  unfold adjDirect
  rw [List.foldl_cons, List.foldl_cons, List.foldl_cons, List.foldl_nil]
  rw [show y - 1 - y = (-1 : Int) by ring, show y - y = (0 : Int) by ring,
    show y + 1 - y = (1 : Int) by ring]
  by_cases hc1 : y - 1 < 0 ∨ y - 1 ≥ height
  · rw [if_pos hc1]
    by_cases hc2 : y < 0 ∨ y ≥ height
    · rw [if_pos hc2]
      by_cases hc3 : y + 1 < 0 ∨ y + 1 ≥ height
      · rw [if_pos hc3]
        simp [adjSpec, dirCellRow_out hc1, dirCellRow_out hc2, dirCellRow_out hc3, Adj.empty]
      · rw [if_neg hc3, adjRow_down]
        simp [adjSpec, dirCellRow_out hc1, dirCellRow_out hc2, dirCellRow_in hc3, Adj.empty]
    · rw [if_neg hc2, adjRow_mid]
      by_cases hc3 : y + 1 < 0 ∨ y + 1 ≥ height
      · rw [if_pos hc3]
        simp [adjSpec, dirCellRow_out hc1, dirCellRow_in hc2, dirCellRow_out hc3, Adj.empty]
      · rw [if_neg hc3, adjRow_down]
        simp [adjSpec, dirCellRow_out hc1, dirCellRow_in hc2, dirCellRow_in hc3, Adj.empty]
  · rw [if_neg hc1, adjRow_up]
    by_cases hc2 : y < 0 ∨ y ≥ height
    · rw [if_pos hc2]
      by_cases hc3 : y + 1 < 0 ∨ y + 1 ≥ height
      · rw [if_pos hc3]
        simp [adjSpec, dirCellRow_in hc1, dirCellRow_out hc2, dirCellRow_out hc3, Adj.empty]
      · rw [if_neg hc3, adjRow_down]
        simp [adjSpec, dirCellRow_in hc1, dirCellRow_out hc2, dirCellRow_in hc3, Adj.empty]
    · rw [if_neg hc2, adjRow_mid]
      by_cases hc3 : y + 1 < 0 ∨ y + 1 ≥ height
      · rw [if_pos hc3]
        simp [adjSpec, dirCellRow_in hc1, dirCellRow_in hc2, dirCellRow_out hc3, Adj.empty]
      · rw [if_neg hc3, adjRow_down]
        simp [adjSpec, dirCellRow_in hc1, dirCellRow_in hc2, dirCellRow_in hc3, Adj.empty]

/-- Cell arithmetic: with in-range column offsets, equal grid indices force
equal rows and equal columns. -/
theorem gridIndex_inj {w a b p q : Int} (hw : 0 < w)
    (ha0 : 0 ≤ a) (haw : a < w) (hb0 : 0 ≤ b) (hbw : b < w) :
    p * w + a = q * w + b ↔ p = q ∧ a = b := by
  constructor
  · intro h
    have h1 : (q - p) * w = a - b := by linear_combination -h
    have hpq : p = q := by
      by_contra hne
      rcases lt_or_gt_of_ne hne with hlt | hgt
      · have hq : (1 : Int) ≤ q - p := by omega
        have hm : 1 * w ≤ (q - p) * w := mul_le_mul_of_nonneg_right hq (le_of_lt hw)
        rw [one_mul, h1] at hm
        omega
      · have hq : q - p ≤ -1 := by omega
        have hm : (q - p) * w ≤ (-1) * w := mul_le_mul_of_nonneg_right hq (le_of_lt hw)
        rw [h1, neg_one_mul] at hm
        omega
    refine ⟨hpq, ?_⟩
    rw [hpq] at h
    linarith
  · rintro ⟨rfl, rfl⟩
    rfl

theorem flattenRowsAux_mem :
    ∀ (rows : Rows) (r0 : Nat) (p : Nat × CEnt), p ∈ flattenRowsAux rows r0 →
      r0 ≤ p.1 ∧ ∃ row ∈ rows, p.2 ∈ row := by
  intro rows
  induction rows with
  | nil =>
      intro r0 p hp
      simp [flattenRowsAux] at hp
  | cons row rest ih =>
      intro r0 p hp
      simp only [flattenRowsAux, List.mem_append, List.mem_map] at hp
      rcases hp with ⟨e, he, rfl⟩ | hp
      · exact ⟨le_refl _, row, List.mem_cons_self _ _, he⟩
      · obtain ⟨h1, row', hrow', he⟩ := ih (r0 + 1) p hp
        exact ⟨by omega, row', List.mem_cons_of_mem _ hrow', he⟩

/-- The cache bucket of cell `(c, r0 + m)` read from the flattened rows
starting at row index `r0`: the `m`-th row filtered to column `c`. -/
theorem flattenRowsAux_filter_eq {width : Int} (hw : 0 < width) :
    ∀ (rows : Rows) (r0 m : Nat) (c : Int), 0 ≤ c → c < width →
      (∀ row ∈ rows, ∀ e ∈ row, 0 ≤ e.cx ∧ e.cx < width) →
      ((flattenRowsAux rows r0).filter fun p =>
          gridIndex p.2.cx (p.1 : Int) width =
            gridIndex c ((r0 + m : Nat) : Int) width).map Prod.snd =
        if m < rows.length then (rows.getD m []).filter fun e => e.cx = c else [] := by
  intro rows
  induction rows with
  | nil =>
      intro r0 m c hc0 hcw hb
      simp [flattenRowsAux]
  | cons row rest ih =>
      intro r0 m c hc0 hcw hb
      have hbrow : ∀ e ∈ row, 0 ≤ e.cx ∧ e.cx < width := hb row (List.mem_cons_self _ _)
      have hbrest : ∀ row' ∈ rest, ∀ e ∈ row', 0 ≤ e.cx ∧ e.cx < width :=
        fun row' h => hb row' (List.mem_cons_of_mem _ h)
      simp only [flattenRowsAux]
      rw [List.filter_append, List.map_append, List.filter_map]
      cases m with
      | zero =>
          have hhead : row.filter ((fun p : Nat × CEnt =>
              decide (gridIndex p.2.cx (p.1 : Int) width =
                gridIndex c ((r0 + 0 : Nat) : Int) width)) ∘ fun e => ((r0 : Nat), e)) =
              row.filter fun e => e.cx = c := by
            apply List.filter_congr
            intro e he
            obtain ⟨he0, hew⟩ := hbrow e he
            simp only [Function.comp]
            rw [decide_eq_decide]
            unfold gridIndex
            rw [gridIndex_inj hw he0 hew hc0 hcw]
            simp
          have htail : (flattenRowsAux rest (r0 + 1)).filter (fun p =>
              gridIndex p.2.cx (p.1 : Int) width =
                gridIndex c ((r0 + 0 : Nat) : Int) width) = [] := by
            rw [List.filter_eq_nil_iff]
            intro p hp
            obtain ⟨hge, row', hrow', hmem⟩ := flattenRowsAux_mem rest (r0 + 1) p hp
            obtain ⟨hp0, hpw⟩ := hbrest row' hrow' p.2 hmem
            unfold gridIndex
            simp only [decide_eq_true_eq]
            rw [gridIndex_inj hw hp0 hpw hc0 hcw]
            rintro ⟨hrr, -⟩
            have : p.1 = r0 + 0 := by exact_mod_cast hrr
            omega
          rw [hhead, htail, List.map_nil, List.append_nil]
          simp
      | succ n =>
          have hhead : row.filter ((fun p : Nat × CEnt =>
              decide (gridIndex p.2.cx (p.1 : Int) width =
                gridIndex c ((r0 + (n + 1) : Nat) : Int) width)) ∘ fun e => ((r0 : Nat), e)) =
              [] := by
            rw [List.filter_eq_nil_iff]
            intro e he
            obtain ⟨he0, hew⟩ := hbrow e he
            simp only [Function.comp, decide_eq_true_eq]
            unfold gridIndex
            rw [gridIndex_inj hw he0 hew hc0 hcw]
            rintro ⟨hrr, -⟩
            have : r0 = r0 + (n + 1) := by exact_mod_cast hrr
            omega
          have hcast : ((r0 + (n + 1) : Nat) : Int) = (((r0 + 1) + n : Nat) : Int) := by
            push_cast
            ring
          rw [hhead, hcast, ih (r0 + 1) n c hc0 hcw hbrest]
          simp [List.getD_cons_succ]

/-- The cache bucket of an in-range cell is that row filtered to that
column. -/
theorem entCache_eq {rows : Rows} {width : Int} (hw : 0 < width)
    (hb : ∀ row ∈ rows, ∀ e ∈ row, 0 ≤ e.cx ∧ e.cx < width)
    (r : Nat) (c : Int) (hc0 : 0 ≤ c) (hcw : c < width) :
    entCache rows width (gridIndex c (r : Int) width) =
      if r < rows.length then (rows.getD r []).filter fun e => e.cx = c else [] := by
  have h := flattenRowsAux_filter_eq hw rows 0 r c hc0 hcw hb
  simpa [entCache] using h

theorem entCache_eq_int {rows : Rows} {width : Int} (hw : 0 < width)
    (hb : ∀ row ∈ rows, ∀ e ∈ row, 0 ≤ e.cx ∧ e.cx < width)
    {r c : Int} (hr0 : 0 ≤ r) (hc0 : 0 ≤ c) (hcw : c < width) :
    entCache rows width (gridIndex c r width) =
      if r < (rows.length : Int) then (rows.getD r.toNat []).filter fun e => e.cx = c
      else [] := by
  have h := entCache_eq hw hb r.toNat c hc0 hcw
  rw [Int.toNat_of_nonneg hr0] at h
  rw [h]
  by_cases hlt : r.toNat < rows.length
  · rw [if_pos hlt, if_pos (by omega)]
  · rw [if_neg hlt, if_neg (by omega)]

theorem gridIndex_out_iff {w h c r : Int} (hw : 0 < w) (hc0 : 0 ≤ c) (hcw : c < w) :
    (gridIndex c r w < 0 ∨ gridIndex c r w ≥ w * h) ↔ ¬(0 ≤ r ∧ r < h) := by
  unfold gridIndex
  constructor
  · rintro (hlt | hge) ⟨hr0, hrh⟩
    · nlinarith [mul_nonneg hr0 (le_of_lt hw)]
    · nlinarith [mul_le_mul_of_nonneg_right (show r ≤ h - 1 by omega) (le_of_lt hw)]
  · intro hout
    rcases (show r < 0 ∨ r ≥ h by omega) with hr | hr
    · left
      nlinarith [mul_le_mul_of_nonneg_right (show r ≤ -1 by omega) (le_of_lt hw)]
    · right
      nlinarith [mul_le_mul_of_nonneg_right (show h ≤ r by omega) (le_of_lt hw)]

/-- One guarded cache read (skip when the index falls outside
`[0, width*height)`, else the bucket) equals the row-and-filter
specification of that cell, for any row `r` and any in-range column `c`. -/
theorem cachedCell_eq {rows : Rows} {width height : Int} (hw : 0 < width)
    (hh : (rows.length : Int) = height)
    (hb : ∀ row ∈ rows, ∀ e ∈ row, 0 ≤ e.cx ∧ e.cx < width)
    (r c : Int) (hc0 : 0 ≤ c) (hcw : c < width) :
    (if gridIndex c r width < 0 ∨ gridIndex c r width ≥ width * height then []
     else entCache rows width (gridIndex c r width)) = dirCellRow rows height r c := by
  by_cases hr : 0 ≤ r ∧ r < height
  · rw [if_neg (by rw [gridIndex_out_iff hw hc0 hcw]; exact not_not_intro hr)]
    rw [entCache_eq_int hw hb hr.1 hc0 hcw]
    rw [dirCellRow_in (by omega) c]
    rw [if_pos (show r < (rows.length : Int) by omega)]
    unfold rowAt
    rw [if_neg (show ¬r < 0 by omega)]
  · rw [if_pos ((gridIndex_out_iff hw hc0 hcw).mpr hr)]
    rw [dirCellRow_out (by omega) c]

theorem setSlot_0 (a : Adj) (l : List CEnt) : setSlot a 0 l = { a with L := l } := rfl

theorem setSlot_1 (a : Adj) (l : List CEnt) : setSlot a 1 l = { a with R := l } := rfl

theorem setSlot_2 (a : Adj) (l : List CEnt) : setSlot a 2 l = { a with U := l } := rfl

theorem setSlot_3 (a : Adj) (l : List CEnt) : setSlot a 3 l = { a with D := l } := rfl

theorem setSlot_4 (a : Adj) (l : List CEnt) : setSlot a 4 l = { a with UL := l } := rfl

theorem setSlot_5 (a : Adj) (l : List CEnt) : setSlot a 5 l = { a with DL := l } := rfl

theorem setSlot_6 (a : Adj) (l : List CEnt) : setSlot a 6 l = { a with UR := l } := rfl

theorem setSlot_7 (a : Adj) (l : List CEnt) : setSlot a 7 l = { a with DR := l } := rfl

/-- The cached neighbor query agrees with the cell-by-cell specification on
interior columns: with the cache rebuilt from rows whose entities lie in
`[0, width)` and `rows.length = height`, for `1 ≤ x ≤ width - 2` every one
of the eight cached lists is the corresponding row filter. -/
theorem adjCached_eq (rows : Rows) (width height x y : Int)
    (hh : (rows.length : Int) = height)
    (hb : ∀ row ∈ rows, ∀ e ∈ row, 0 ≤ e.cx ∧ e.cx < width)
    (hx1 : 1 ≤ x) (hx2 : x ≤ width - 2) :
    adjCached rows width height x y = adjSpec rows height x y := by
  have hw : 0 < width := by omega
  unfold adjCached
  simp only [List.foldl_cons, List.foldl_nil,
    show lookupSpot (-1) (-1) = some 4 from by decide,
    show lookupSpot (-1) 0 = some 2 from by decide,
    show lookupSpot (-1) 1 = some 6 from by decide,
    show lookupSpot 0 (-1) = some 0 from by decide,
    show lookupSpot 0 0 = none from by decide,
    show lookupSpot 0 1 = some 1 from by decide,
    show lookupSpot 1 (-1) = some 5 from by decide,
    show lookupSpot 1 0 = some 3 from by decide,
    show lookupSpot 1 1 = some 7 from by decide]
  rw [show x + -1 = x - 1 by ring, show y + -1 = y - 1 by ring,
    show x + 0 = x by ring, show y + 0 = y by ring]
  apply Adj.ext
  · simp only [apply_ite Adj.L, setSlot_0, setSlot_1, setSlot_2, setSlot_3,
      setSlot_4, setSlot_5, setSlot_6, setSlot_7, ite_self]
    exact cachedCell_eq hw hh hb y (x - 1) (by omega) (by omega)
  · simp only [apply_ite Adj.R, setSlot_0, setSlot_1, setSlot_2, setSlot_3,
      setSlot_4, setSlot_5, setSlot_6, setSlot_7, ite_self]
    exact cachedCell_eq hw hh hb y (x + 1) (by omega) (by omega)
  · simp only [apply_ite Adj.U, setSlot_0, setSlot_1, setSlot_2, setSlot_3,
      setSlot_4, setSlot_5, setSlot_6, setSlot_7, ite_self]
    exact cachedCell_eq hw hh hb (y - 1) x (by omega) (by omega)
  · simp only [apply_ite Adj.D, setSlot_0, setSlot_1, setSlot_2, setSlot_3,
      setSlot_4, setSlot_5, setSlot_6, setSlot_7, ite_self]
    exact cachedCell_eq hw hh hb (y + 1) x (by omega) (by omega)
  · simp only [apply_ite Adj.UL, setSlot_0, setSlot_1, setSlot_2, setSlot_3,
      setSlot_4, setSlot_5, setSlot_6, setSlot_7, ite_self]
    exact cachedCell_eq hw hh hb (y - 1) (x - 1) (by omega) (by omega)
  · simp only [apply_ite Adj.DL, setSlot_0, setSlot_1, setSlot_2, setSlot_3,
      setSlot_4, setSlot_5, setSlot_6, setSlot_7, ite_self]
    exact cachedCell_eq hw hh hb (y + 1) (x - 1) (by omega) (by omega)
  · simp only [apply_ite Adj.UR, setSlot_0, setSlot_1, setSlot_2, setSlot_3,
      setSlot_4, setSlot_5, setSlot_6, setSlot_7, ite_self]
    exact cachedCell_eq hw hh hb (y - 1) (x + 1) (by omega) (by omega)
  · simp only [apply_ite Adj.DR, setSlot_0, setSlot_1, setSlot_2, setSlot_3,
      setSlot_4, setSlot_5, setSlot_6, setSlot_7, ite_self]
    exact cachedCell_eq hw hh hb (y + 1) (x + 1) (by omega) (by omega)

end BasementRenovator

/-- C5 counterexample: in a 2x2 room with a single entity at `(1, 0)`,
querying the neighbors of `(0, 1)` gives different results on the two
paths: the cached path wraps `gridIndex(-1, 1) = 1` around to cell
`(1, 0)` and reports the entity as a left neighbor, while the direct scan
correctly reports it as up-right only. -/
theorem neighbors_cache_counterexample :
    (BasementRenovator.adjCached [[⟨1, 0⟩], []] 2 2 0 1).L = [⟨1, 0⟩] ∧
    (BasementRenovator.adjDirect [[⟨1, 0⟩], []] 2 0 1).L = [] ∧
    BasementRenovator.adjCached [[⟨1, 0⟩], []] 2 2 0 1 ≠
      BasementRenovator.adjDirect [[⟨1, 0⟩], []] 2 0 1 := by
  refine ⟨by decide, by decide, by decide⟩

/-- C5 amended: the cached neighbor query (cache freshly rebuilt from the
current placements in row-major order) and the direct row-scan query
return identical eight ordered lists for every cell in an *interior
column* (`1 ≤ x ≤ width - 2`, any row `0 ≤ y < height`); at the boundary
columns `x = 0` and `x = width - 1` the cached path can wrap a `gridIndex`
around a row edge and disagree.  The hypotheses say the scene has one row
list per grid row and every placement's `x` lies inside `[0, width)`. -/
theorem neighbors_cache_equiv (rows : BasementRenovator.Rows)
    (width height x y : Int)
    (hh : (rows.length : Int) = height)
    (hb : ∀ row ∈ rows, ∀ e ∈ row, 0 ≤ e.cx ∧ e.cx < width)
    (hx1 : 1 ≤ x) (hx2 : x ≤ width - 2) :
    BasementRenovator.adjCached rows width height x y =
      BasementRenovator.adjDirect rows height x y :=
  (BasementRenovator.adjCached_eq rows width height x y hh hb hx1 hx2).trans
    (BasementRenovator.adjDirect_eq rows height x y).symm

/-- Witness for C5's amended theorem: a 3-wide room, querying the interior
column `x = 1`. -/
theorem neighbors_cache_equiv_witness :
    BasementRenovator.adjCached [[⟨1, 0⟩], []] 3 2 1 1 =
      BasementRenovator.adjDirect [[⟨1, 0⟩], []] 2 1 1 :=
  neighbors_cache_equiv [[⟨1, 0⟩], []] 3 2 1 1
    (by decide) (by decide) (by decide) (by decide)

/-- C2: the door-blocking scenario of the spec, played on shape 1's top
door `(7, 0)` whose blocking cell is `(7, 1)`.  Starting from
`exists = true, blockingCount = 0`: inserting a blocking item at the
blocking cell (not count-only) gives `blockingCount = 1, exists = false`;
removing it gives `blockingCount = 0` with `exists` still false; a manual
toggle sets `exists = true`; re-inserting gives `exists = false` again. -/
theorem door_blocking_scenario :
    (BasementRenovator.freshDoors BasementRenovator.shape1).head? =
      some ⟨7, 0, true, 0⟩ ∧
    (BasementRenovator.updateBlockedDoor BasementRenovator.shape1
        (BasementRenovator.freshDoors BasementRenovator.shape1)
        7 1 true false false).head? = some ⟨7, 0, false, 1⟩ ∧
    (BasementRenovator.updateBlockedDoor BasementRenovator.shape1
        (BasementRenovator.updateBlockedDoor BasementRenovator.shape1
          (BasementRenovator.freshDoors BasementRenovator.shape1)
          7 1 true false false)
        7 1 true true false).head? = some ⟨7, 0, false, 0⟩ ∧
    (BasementRenovator.toggleDoor
        (BasementRenovator.updateBlockedDoor BasementRenovator.shape1
          (BasementRenovator.updateBlockedDoor BasementRenovator.shape1
            (BasementRenovator.freshDoors BasementRenovator.shape1)
            7 1 true false false)
          7 1 true true false)
        7 0).head? = some ⟨7, 0, true, 0⟩ ∧
    (BasementRenovator.updateBlockedDoor BasementRenovator.shape1
        (BasementRenovator.toggleDoor
          (BasementRenovator.updateBlockedDoor BasementRenovator.shape1
            (BasementRenovator.updateBlockedDoor BasementRenovator.shape1
              (BasementRenovator.freshDoors BasementRenovator.shape1)
              7 1 true false false)
            7 1 true true false)
          7 0)
        7 1 true false false).head? = some ⟨7, 0, false, 1⟩ := by
  refine ⟨rfl, ?_, ?_, ?_, ?_⟩ <;> decide

/-- C8: for every one of the twelve catalog shapes, the door-to-wall build
produces exactly one association per door slot, and every association's
wall segment is of the matching axis, contains the door's span coordinate
in `[spanMin, spanMax]`, and has its level equal to the door's cross
coordinate. -/
theorem doorWalls_unique_association :
    ∀ sh ∈ BasementRenovator.allShapes,
      (BasementRenovator.doorWalls sh).length = sh.doors.length ∧
      (∀ d ∈ sh.doors,
        ((BasementRenovator.doorWalls sh).filter (fun dw => dw.door = d)).length = 1) ∧
      (∀ dw ∈ BasementRenovator.doorWalls sh,
        (dw.axis = BasementRenovator.Axis.X →
            dw.wall ∈ sh.wallsX ∧ dw.wall.wMin ≤ dw.door.1 ∧ dw.door.1 ≤ dw.wall.wMax ∧
              dw.door.2 = dw.wall.lvl) ∧
        (dw.axis = BasementRenovator.Axis.Y →
            dw.wall ∈ sh.wallsY ∧ dw.wall.wMin ≤ dw.door.2 ∧ dw.door.2 ≤ dw.wall.wMax ∧
              dw.door.1 = dw.wall.lvl)) := by
  decide

/-- Witness for C8 at shape 9, the mirrored-L room with interior corner
walls: its build yields one association per door. -/
theorem doorWalls_unique_association_witness :
    (BasementRenovator.doorWalls BasementRenovator.shape9).length =
      BasementRenovator.shape9.doors.length :=
  (doorWalls_unique_association BasementRenovator.shape9 (by decide)).1
